import Mathlib

/-!
Shallow embedding of the core pipeline of the Swing-Leofy-Analysis repository
(`src/utils.py`, `src/stock_data.py`, `src/ai_analysis.py`, `src/gemini_analysis.py`,
`src/app.py`) and proofs about it.

Python strings are modelled as lists of characters (`PyStr`), Python numbers as
rationals (`ℚ`), absent dictionary fields as `none`, and Python exceptions as the
`Except` monad.  Decimal rounding inside `f"{x:.1f}"`-style formatting is modelled
as round-half-up; no property proved here depends on tie behaviour.
-/

section SwingLeofy

set_option maxRecDepth 4000

attribute [local semireducible] Rat.mul Rat.add Rat.sub Rat.inv Rat.ofScientific

/-- Python `str` is modelled as a list of characters. -/
abbrev PyStr := List Char

/-- Model of Python `str.upper()` (ASCII letters, as used by the repository). -/
def upperL (s : PyStr) : PyStr := s.map Char.toUpper

/-- Model of Python `str.lower()` (ASCII letters, as used by the repository). -/
def lowerL (s : PyStr) : PyStr := s.map Char.toLower

/-- Model of Python `str.strip()`: drop whitespace from both ends. -/
def trimL (s : PyStr) : PyStr :=
  List.rdropWhile Char.isWhitespace (s.dropWhile Char.isWhitespace)

/-- Model of Python `pat in hay` substring test. -/
def containsL (hay pat : PyStr) : Bool :=
  hay.tails.any (fun t => pat.isPrefixOf t)

/-- Model of Python `hay.endswith(suf)`. -/
def endsWithL (hay suf : PyStr) : Bool :=
  suf.isSuffixOf hay

/-- Model of Python `text.split(c)` for a single-character separator. -/
def splitOnChar (sep : Char) : PyStr → List PyStr
  | [] => [[]]
  | c :: cs =>
    if c = sep then [] :: splitOnChar sep cs
    else
      match splitOnChar sep cs with
      | [] => [[c]]
      | g :: gs => (c :: g) :: gs

/-- Join a list of lines with a separating newline (left inverse of
`splitOnChar` on newline-free lines; used to state parser properties). -/
def joinNL : List PyStr → PyStr
  | [] => []
  | [l] => l
  | l :: ls => l ++ '\n' :: joinNL ls

/-- Python truthiness of an optional numeric field read with `dict.get(k)`:
an absent field (`None`) and a zero value are falsy. -/
def oTruthy : Option ℚ → Bool
  | none => false
  | some x => decide (x ≠ 0)

/-- Model of Python fixed-point formatting `f"{x:.nf}"` on rationals
(rounding half up; ties never matter for the properties proved here). -/
def fmtFixed (x : ℚ) (n : ℕ) : PyStr :=
  let m : ℤ := Rat.floor (x * ((10 ^ n : ℕ) : ℚ) + 1 / 2)
  let q : ℕ := m.natAbs
  let ip : ℕ := q / 10 ^ n
  let fp : ℕ := q % 10 ^ n
  let fracDigits := Nat.toDigits 10 fp
  let frac := List.replicate (n - fracDigits.length) '0' ++ fracDigits
  (if m < 0 then ['-'] else []) ++ Nat.toDigits 10 ip ++ '.' :: frac

/-! ## `src/utils.py` — `validate_stock_symbol`

The six regular expressions of `validate_stock_symbol` are hand-compiled into a
tiny matcher.  Each pattern is a sequence of tokens (case-insensitive literal,
`\s+`, `\s*`) around a single capturing group `([A-Za-z]+)`; for these patterns
greedy matching without backtracking is exact, because each character class is
disjoint from the first character of what follows. -/

/-- One token of a hand-compiled regular expression: a case-insensitive literal,
`\s+`, or `\s*`. -/
inductive RTok where
  | lit (s : PyStr)
  | wsPlus
  | wsStar

/-- Case-insensitive literal equality, modelling `re.IGNORECASE`. -/
def eqCI (a b : PyStr) : Bool := lowerL a = lowerL b

/-- Match a token sequence against a prefix of the input, returning the rest. -/
def matchPlain : List RTok → PyStr → Option PyStr
  | [], s => some s
  | .lit l :: ts, s =>
    if eqCI (s.take l.length) l then matchPlain ts (s.drop l.length) else none
  | .wsPlus :: ts, s =>
    if s.takeWhile Char.isWhitespace = [] then none
    else matchPlain ts (s.dropWhile Char.isWhitespace)
  | .wsStar :: ts, s => matchPlain ts (s.dropWhile Char.isWhitespace)

/-- Match `pre ([A-Za-z]+) post` at the start of `s`, returning the group. -/
def matchCapAt (pre post : List RTok) (s : PyStr) : Option PyStr :=
  match matchPlain pre s with
  | none => none
  | some rest =>
    let g := rest.takeWhile Char.isAlpha
    if g = [] then none
    else
      match matchPlain post (rest.dropWhile Char.isAlpha) with
      | none => none
      | some _ => some g

/-- Model of `re.search` for an unanchored pattern: try every start position,
leftmost match wins. -/
def searchCap (pre post : List RTok) (s : PyStr) : Option PyStr :=
  s.tails.findSome? (matchCapAt pre post)

/-- The six extraction patterns of `validate_stock_symbol`, in source order.
`none` stands for the fully anchored pattern `^([A-Za-z]+)$`. -/
def symbolPatterns : List (Option (List RTok × List RTok)) :=
  [ some ([.lit ("analyze".toList), .wsPlus, .lit ("stock:".toList), .wsStar], []),
    some ([.lit ("analyze".toList), .wsPlus], []),
    some ([.lit ("stock:".toList), .wsStar], []),
    none,
    some ([], [.wsPlus, .lit ("stock".toList)]),
    some ([], [.wsPlus, .lit ("analysis".toList)]) ]

/-- Run one pattern of `validate_stock_symbol` over the cleaned input. -/
def runPattern (cleaned : PyStr) : Option (List RTok × List RTok) → Option PyStr
  | some (pre, post) => searchCap pre post cleaned
  | none => if cleaned ≠ [] ∧ cleaned.all Char.isAlpha then some cleaned else none

/-- The in-loop validation applied to a regex group: uppercase, strip, and keep
only alphabetic symbols of length at least 2 (`symbol.isalpha()` and
`len(symbol) >= 2`); on failure the loop continues with the next pattern. -/
def acceptGroup : Option PyStr → Option PyStr
  | none => none
  | some g =>
    let symbol := trimL (upperL g)
    if 2 ≤ symbol.length ∧ symbol ≠ [] ∧ symbol.all Char.isAlpha then some symbol
    else none

/-- Model of `utils.validate_stock_symbol`. -/
def validate_stock_symbol (user_input : PyStr) : Option PyStr :=
  if user_input = [] then none
  else
    let cleaned := trimL user_input
    match symbolPatterns.findSome? (fun p => acceptGroup (runPattern cleaned p)) with
    | some symbol => some symbol
    | none =>
      let compact := cleaned.filter (fun c => c ≠ ' ')
      if (compact ≠ [] ∧ compact.all Char.isAlpha) ∧ compact.length ≤ 10 then
        some (upperL compact)
      else none

/-! ## `src/stock_data.py` — `get_indian_symbol` and the shareholding estimators -/

/-- The static alias table of `StockDataFetcher.get_indian_symbol`, in source
order. -/
def indian_symbols : List (PyStr × PyStr) :=
  [ ("TCS".toList, "TCS.NS".toList),
    ("INFY".toList, "INFY.NS".toList),
    ("INFOSYS".toList, "INFY.NS".toList),
    ("RELIANCE".toList, "RELIANCE.NS".toList),
    ("HDFCBANK".toList, "HDFCBANK.NS".toList),
    ("HDFC".toList, "HDFCBANK.NS".toList),
    ("ITC".toList, "ITC.NS".toList),
    ("SBIN".toList, "SBIN.NS".toList),
    ("SBI".toList, "SBIN.NS".toList),
    ("BHARTIARTL".toList, "BHARTIARTL.NS".toList),
    ("AIRTEL".toList, "BHARTIARTL.NS".toList),
    ("ICICIBANK".toList, "ICICIBANK.NS".toList),
    ("ICICI".toList, "ICICIBANK.NS".toList),
    ("LT".toList, "LT.NS".toList),
    ("LARSEN".toList, "LT.NS".toList),
    ("HCLTECH".toList, "HCLTECH.NS".toList),
    ("HCL".toList, "HCLTECH.NS".toList),
    ("WIPRO".toList, "WIPRO.NS".toList),
    ("ONGC".toList, "ONGC.NS".toList),
    ("NTPC".toList, "NTPC.NS".toList),
    ("POWERGRID".toList, "POWERGRID.NS".toList),
    ("COALINDIA".toList, "COALINDIA.NS".toList),
    ("MARUTI".toList, "MARUTI.NS".toList),
    ("BAJFINANCE".toList, "BAJFINANCE.NS".toList),
    ("BAJAJ".toList, "BAJFINANCE.NS".toList),
    ("SUNPHARMA".toList, "SUNPHARMA.NS".toList),
    ("DRREDDY".toList, "DRREDDY.NS".toList),
    ("NESTLEIND".toList, "NESTLEIND.NS".toList),
    ("NESTLE".toList, "NESTLEIND.NS".toList),
    ("HINDUNILVR".toList, "HINDUNILVR.NS".toList),
    ("HUL".toList, "HINDUNILVR.NS".toList),
    ("ULTRACEMCO".toList, "ULTRACEMCO.NS".toList),
    ("ADANIPORTS".toList, "ADANIPORTS.NS".toList),
    ("ADANI".toList, "ADANIPORTS.NS".toList) ]

/-- First-match association lookup, modelling a Python dict built from the
literal above (its keys are pairwise distinct). -/
def lookupL (k : PyStr) : List (PyStr × PyStr) → Option PyStr
  | [] => none
  | (a, b) :: rest => if k = a then some b else lookupL k rest

/-- Model of `StockDataFetcher.get_indian_symbol`. -/
def get_indian_symbol (symbol : PyStr) : PyStr :=
  let s := trimL (upperL symbol)
  if endsWithL s (".NS".toList) || endsWithL s (".BO".toList) then s
  else
    match lookupL s indian_symbols with
    | some v => v
    | none => s ++ ".NS".toList

/-- The fields of the upstream `info` dictionary read by the shareholding
estimators of `StockDataFetcher`; any field may be absent. -/
structure HoldingInfo where
  heldPercentInsiders : Option ℚ
  heldPercentInstitutions : Option ℚ
  floatShares : Option ℚ
  sharesOutstanding : Option ℚ

/-- Model of `StockDataFetcher._get_promoter_holding`. -/
def get_promoter_holding (info : HoldingInfo) : ℚ :=
  let held_by_insiders := info.heldPercentInsiders.getD 0
  if held_by_insiders ≠ 0 ∧ 0 < held_by_insiders then held_by_insiders * 100
  else
    if oTruthy info.floatShares ∧ oTruthy info.sharesOutstanding ∧
        0 < info.sharesOutstanding.getD 0 then
      let fs := info.floatShares.getD 0
      let so := info.sharesOutstanding.getD 0
      max 0 (min 100 ((so - fs) / so * 100))
    else 45

/-- Model of `StockDataFetcher._get_fii_holding`. -/
def get_fii_holding (info : HoldingInfo) : ℚ :=
  let held_by_institutions := info.heldPercentInstitutions.getD 0
  if held_by_institutions ≠ 0 ∧ 0 < held_by_institutions then
    held_by_institutions * 0.65 * 100
  else 15

/-- Model of `StockDataFetcher._get_dii_holding`. -/
def get_dii_holding (info : HoldingInfo) : ℚ :=
  let held_by_institutions := info.heldPercentInstitutions.getD 0
  if held_by_institutions ≠ 0 ∧ 0 < held_by_institutions then
    held_by_institutions * 0.35 * 100
  else 8

/-- Model of `StockDataFetcher._get_retail_holding` (the `30.0` default of the
source is returned only from its `except` handler, which cannot trigger on
well-typed numeric fields). -/
def get_retail_holding (info : HoldingInfo) : ℚ :=
  let held_by_institutions := info.heldPercentInstitutions.getD 0
  let held_by_insiders := info.heldPercentInsiders.getD 0
  let institutional_percent := held_by_institutions * 100
  let promoter_percent := held_by_insiders * 100
  max 0 (min 100 (100 - institutional_percent - promoter_percent))

/-! ## `src/ai_analysis.py` — `AIAnalyzer` -/

/-- The stock-data fields read by `AIAnalyzer._generate_basic_analysis`; any
field may be absent. -/
structure StockData where
  company_name : Option PyStr
  sector : Option PyStr
  current_price : Option ℚ
  pe_ratio : Option ℚ
  roe : Option ℚ
  debt_to_equity : Option ℚ
  revenue_growth : Option ℚ
  fifty_two_week_high : Option ℚ
  fifty_two_week_low : Option ℚ
  dividend_yield : Option ℚ
deriving DecidableEq

/-- The valuation block of `_generate_basic_analysis` (P/E classification). -/
def valuation_insight : Option ℚ → Option PyStr
  | none => none
  | some pe =>
    if pe ≠ 0 then
      some (if pe < 15 then
              "Stock appears undervalued with P/E ratio of ".toList ++ fmtFixed pe 1 ++
                ", below market average".toList
            else if 30 < pe then
              "Stock trades at premium valuation with P/E ratio of ".toList ++ fmtFixed pe 1
            else
              "Stock shows reasonable valuation with P/E ratio of ".toList ++ fmtFixed pe 1)
    else none

/-- The profitability block of `_generate_basic_analysis` (ROE). -/
def roe_insight : Option ℚ → Option PyStr
  | none => none
  | some roe =>
    if roe ≠ 0 then
      some (if 15 < roe then
              "Excellent Return on Equity of ".toList ++ fmtFixed roe 1 ++
                "% demonstrates strong profitability".toList
            else if roe < 10 then
              "ROE of ".toList ++ fmtFixed roe 1 ++
                "% suggests room for improvement in profitability".toList
            else
              "Moderate ROE of ".toList ++ fmtFixed roe 1 ++
                "% indicates stable returns".toList)
    else none

/-- The financial-health block of `_generate_basic_analysis` (debt/equity). -/
def debt_insight : Option ℚ → Option PyStr
  | none => none
  | some de =>
    if de ≠ 0 then
      some (if de < 0.3 then
              "Conservative debt management with D/E ratio of ".toList ++ fmtFixed de 2
            else if 1 < de then
              "High leverage with D/E ratio of ".toList ++ fmtFixed de 2 ++
                " requires monitoring".toList
            else
              "Balanced capital structure with D/E ratio of ".toList ++ fmtFixed de 2)
    else none

/-- The growth block of `_generate_basic_analysis` (revenue growth). -/
def growth_insight : Option ℚ → Option PyStr
  | none => none
  | some g =>
    if g ≠ 0 then
      some (if 15 < g then
              "Strong revenue growth of ".toList ++ fmtFixed g 1 ++
                "% indicates business expansion".toList
            else if g < 0 then
              "Negative revenue growth of ".toList ++ fmtFixed g 1 ++
                "% shows business challenges".toList
            else
              "Moderate revenue growth of ".toList ++ fmtFixed g 1 ++
                "% suggests steady business".toList)
    else none

/-- The market-performance block of `_generate_basic_analysis` (price versus
the 52-week range); `cp` is `current_price` after its `.get(k, 0)` default. -/
def perf_insight (cp : ℚ) (hi lo : Option ℚ) : Option PyStr :=
  if cp ≠ 0 ∧ oTruthy hi ∧ oTruthy lo then
    let h := hi.getD 0
    let perf_vs_high := (cp / h - 1) * 100
    if -10 < perf_vs_high then
      some ("Trading near 52-week high suggests strong market sentiment".toList)
    else if perf_vs_high < -30 then
      some ("Trading significantly below 52-week high may present opportunity".toList)
    else none
  else none

/-- The dividend block of `_generate_basic_analysis`. -/
def dividend_insight : Option ℚ → Option PyStr
  | none => none
  | some dy =>
    if dy ≠ 0 ∧ 0 < dy then
      some (if 3 < dy then
              "Attractive dividend yield of ".toList ++ fmtFixed dy 1 ++
                "% provides steady income".toList
            else
              "Dividend yield of ".toList ++ fmtFixed dy 1 ++
                "% offers modest income".toList)
    else none

/-- The `insights` list of `_generate_basic_analysis` after the metric blocks
and the empty-list fallback. -/
def basic_insights (stock_data : StockData) : List PyStr :=
  let company_name := stock_data.company_name.getD ("the company".toList)
  let current_price := stock_data.current_price.getD 0
  let ins :=
    [ valuation_insight stock_data.pe_ratio,
      roe_insight stock_data.roe,
      debt_insight stock_data.debt_to_equity,
      growth_insight stock_data.revenue_growth,
      perf_insight current_price stock_data.fifty_two_week_high stock_data.fifty_two_week_low,
      dividend_insight stock_data.dividend_yield ].reduceOption
  if ins = [] then
    [ "Currently analyzing ".toList ++ company_name ++ " financial data".toList,
      if current_price ≠ 0 then "Stock trading at ₹".toList ++ fmtFixed current_price 2
      else "Price data available".toList,
      "Sector: ".toList ++ stock_data.sector.getD ("Information not available".toList),
      "Comprehensive analysis requires additional data points".toList ]
  else ins

/-- The `investment_summary` string built by `_generate_basic_analysis`. -/
def basic_summary (stock_data : StockData) : PyStr :=
  let company_name := stock_data.company_name.getD ("the company".toList)
  let insights := basic_insights stock_data
  if 3 ≤ insights.length then
    "Based on available metrics, ".toList ++ company_name ++
      " shows mixed fundamentals. ".toList ++
    (if insights.any (fun i => containsL (lowerL i) ("strong".toList) ||
        containsL (lowerL i) ("excellent".toList)) then
      "Several positive indicators suggest potential investment merit. ".toList
     else []) ++
    (if insights.any (fun i => containsL (lowerL i) ("concern".toList) ||
        containsL (lowerL i) ("negative".toList)) then
      "Some areas require careful monitoring before investment decisions. ".toList
     else []) ++
    "Comprehensive analysis recommended with additional research.".toList
  else
    "Limited data available for ".toList ++ company_name ++
      ". Additional research recommended for investment decisions.".toList

/-- Model of `AIAnalyzer._generate_basic_analysis`: the formatted report string
(the code after its first `return` is unreachable and is not modelled). -/
def generate_basic_analysis (stock_data : StockData) : PyStr :=
  let company_name := stock_data.company_name.getD ("the company".toList)
  let formatted_insights :=
    joinNL (((basic_insights stock_data).take 6).map (fun i => "• ".toList ++ i))
  "**📊 STOCK ANALYSIS: ".toList ++ upperL company_name ++ "**\n\n**Key Insights:**\n".toList ++
    formatted_insights ++ "\n\n**Investment Summary:**\n".toList ++ basic_summary stock_data ++
    "\n\n*Note: This analysis is based on available financial data. For investment decisions, consider consulting with a financial advisor and conducting additional research.*".toList

/-- Section state of `AIAnalyzer._parse_analysis` (`current_section`). -/
inductive Sect where
  | insights
  | summary
deriving DecidableEq

/-- Loop state of `AIAnalyzer._parse_analysis`. -/
structure PState where
  sec : Option Sect
  ins : List PyStr
  sum : PyStr
deriving DecidableEq

/-- Does the stripped line start with a bullet marker (`•`, `-` or `*`)? -/
def startsBullet : PyStr → Bool
  | [] => false
  | c :: _ => c = '•' || c = '-' || c = '*'

/-- One iteration of the line loop of `AIAnalyzer._parse_analysis`. -/
def parseStep (st : PState) (rawLine : PyStr) : PState :=
  let line := trimL rawLine
  if containsL (upperL line) ("INSIGHTS:".toList) then
    { st with sec := some Sect.insights }
  else if containsL (upperL line) ("INVESTMENT_SUMMARY:".toList) then
    { st with sec := some Sect.summary }
  else if startsBullet line then
    if st.sec = some Sect.insights then
      { st with ins := st.ins ++ [trimL (line.drop 1)] }
    else st
  else if st.sec = some Sect.summary ∧ line ≠ [] then
    { st with sum := st.sum ++ line ++ [' '] }
  else st

/-- The dictionary returned by `AIAnalyzer._parse_analysis` on its happy path. -/
structure ParseOut where
  insights : List PyStr
  investment_summary : PyStr
deriving DecidableEq

/-- Model of `AIAnalyzer._parse_analysis` (its body raises no exception on a
string input, so its `except` branch is unreachable). -/
def parse_analysis (analysis_text : PyStr) : ParseOut :=
  let lines := splitOnChar '\n' analysis_text
  let st := lines.foldl parseStep ⟨none, [], []⟩
  let investment_summary := trimL st.sum
  let insights :=
    if st.ins = [] then
      ["Analysis pending - please check back for detailed insights".toList]
    else st.ins
  let investment_summary :=
    if investment_summary = [] then
      "Investment analysis is being processed. Please try again for detailed recommendations.".toList
    else investment_summary
  ⟨insights.take 5, investment_summary⟩

/-- The two dictionary shapes `AIAnalyzer.analyze_stock` can return: the parsed
LLM result `{'insights', 'investment_summary'}` (which carries no `source` key)
and the fallback `{'analysis', 'source': 'basic'[, 'error']}`. -/
inductive AnalyzeOut where
  | parsed (p : ParseOut)
  | basic (analysis : PyStr) (error : Option PyStr)
deriving DecidableEq

/-- `dict.get('source')` on an `AIAnalyzer.analyze_stock` result. -/
def source_tag : AnalyzeOut → Option PyStr
  | .parsed _ => none
  | .basic _ _ => some ("basic".toList)

/-- `dict.get('analysis', 'Analysis completed successfully')` as applied by
`app.process_stock_query` to an `AIAnalyzer.analyze_stock` result. -/
def analysis_field : AnalyzeOut → PyStr
  | .parsed _ => "Analysis completed successfully".toList
  | .basic a _ => a

/-- The environment of one `AIAnalyzer.analyze_stock` run: the configured API
keys and the outcome each provider call would produce if invoked
(`Except.error` models a raised exception). -/
structure Env where
  together_api_key : PyStr
  groq_api_key : PyStr
  together_result : Except PyStr PyStr
  groq_result : Except PyStr PyStr

deriving instance DecidableEq for Except

/-- Model of a Python `try`/`except Exception` block. -/
def pyTry {α} (body : Except PyStr α) (handler : PyStr → Except PyStr α) :
    Except PyStr α :=
  match body with
  | .ok a => .ok a
  | .error e => handler e

/-- Model of `AIAnalyzer.analyze_stock`: try Together AI, then Groq, then the
rule-based fallback; each provider call sits in its own `try`/`except`, and the
whole body sits in an outer `try`/`except` that returns an error-tagged basic
result. -/
def analyze_stock (env : Env) (stock_data : StockData) : Except PyStr AnalyzeOut :=
  pyTry
    (do
      let step1 : Option AnalyzeOut ←
        if env.together_api_key ≠ [] then
          pyTry
            (do
              let analysis ← env.together_result
              pure (if analysis ≠ [] then
                      some (AnalyzeOut.parsed (parse_analysis analysis))
                    else none))
            (fun _ => pure none)
        else pure none
      match step1 with
      | some r => pure r
      | none => do
        let step2 : Option AnalyzeOut ←
          if env.groq_api_key ≠ [] then
            pyTry
              (do
                let analysis ← env.groq_result
                pure (if analysis ≠ [] then
                        some (AnalyzeOut.parsed (parse_analysis analysis))
                      else none))
              (fun _ => pure none)
          else pure none
        match step2 with
        | some r => pure r
        | none => pure (AnalyzeOut.basic (generate_basic_analysis stock_data) none))
    (fun e => .ok (AnalyzeOut.basic (generate_basic_analysis stock_data) (some e)))

/-! ## `src/gemini_analysis.py` — `GeminiStockAnalyzer` -/

/-- The dictionary returned by `GeminiStockAnalyzer.analyze_stock_comprehensive`. -/
structure GeminiOut where
  key_insights : List PyStr
  investor_implications : PyStr
  detailed_analysis : PyStr
  analysis_source : PyStr
deriving DecidableEq

/-- Section state of `GeminiStockAnalyzer._parse_comprehensive_analysis`. -/
inductive GSect where
  | ins
  | impl
  | det
deriving DecidableEq

/-- Loop state of `GeminiStockAnalyzer._parse_comprehensive_analysis`. -/
structure GState where
  sec : Option GSect
  ins : List PyStr
  impl : PyStr
  det : PyStr

/-- The bullet prefixes recognised by the Gemini parser
(`line.startswith(('•', '-', '*', '1.', ..., '6.'))`). -/
def gBullet (l : PyStr) : Bool :=
  ["•", "-", "*", "1.", "2.", "3.", "4.", "5.", "6."].any
    (fun p => p.toList.isPrefixOf l)

/-- The character set of `line.lstrip('•-*123456. ')`. -/
def gStripSet (c : Char) : Bool := ("•-*123456. ".toList).contains c

/-- One iteration of the line loop of `_parse_comprehensive_analysis`. -/
def gStep (st : GState) (rawLine : PyStr) : GState :=
  let line := trimL rawLine
  if line = [] then st
  else if containsL (upperL line) ("KEY INSIGHTS".toList) ||
      containsL (upperL line) ("INSIGHTS:".toList) then
    { st with sec := some GSect.ins }
  else if containsL (upperL line) ("INVESTOR IMPLICATIONS".toList) ||
      containsL (upperL line) ("IMPLICATIONS".toList) then
    { st with sec := some GSect.impl }
  else if containsL (upperL line) ("DETAILED ANALYSIS".toList) ||
      containsL (upperL line) ("ANALYSIS:".toList) then
    { st with sec := some GSect.det }
  else
    match st.sec with
    | some GSect.ins =>
      if gBullet line then
        let clean_insight := trimL (line.dropWhile gStripSet)
        if clean_insight ≠ [] then { st with ins := st.ins ++ [clean_insight] } else st
      else st
    | some GSect.impl => { st with impl := st.impl ++ line ++ [' '] }
    | some GSect.det => { st with det := st.det ++ line ++ [' '] }
    | none => st

/-- Model of `GeminiStockAnalyzer._parse_comprehensive_analysis`. -/
def parse_comprehensive_analysis (analysis_text : PyStr) (stock_data : StockData) :
    GeminiOut :=
  let st := (splitOnChar '\n' analysis_text).foldl gStep ⟨none, [], [], []⟩
  let investor_implications := trimL st.impl
  let detailed_analysis := trimL st.det
  let insights :=
    if st.ins = [] then
      [ "Analysis of ".toList ++ stock_data.company_name.getD ("the company".toList) ++
          " shows mixed financial indicators".toList,
        "Market position and valuation metrics require careful evaluation".toList,
        "Financial health indicators present both opportunities and risks".toList ]
    else st.ins
  let investor_implications :=
    if investor_implications = [] then
      "Investors should conduct thorough research on ".toList ++
        stock_data.company_name.getD ("this stock".toList) ++
        " considering current market conditions and financial metrics before making investment decisions.".toList
    else investor_implications
  let detailed_analysis :=
    if detailed_analysis = [] then
      stock_data.company_name.getD ("This company".toList) ++ " operates in the ".toList ++
        stock_data.sector.getD ("market".toList) ++
        " sector with current financial metrics indicating a mixed investment profile requiring detailed evaluation.".toList
    else detailed_analysis
  ⟨insights.take 6, investor_implications, detailed_analysis, "gemini".toList⟩

/-- Model of `GeminiStockAnalyzer._generate_fallback_analysis`. -/
def generate_fallback_analysis (stock_data : StockData) : GeminiOut :=
  let company_name := stock_data.company_name.getD ("the company".toList)
  ⟨ [ "Analysis shows ".toList ++ company_name ++
        " current market position requires evaluation".toList,
      "Financial metrics indicate mixed performance indicators".toList,
      "Valuation ratios suggest careful consideration for investment decisions".toList,
      "Market conditions and sector dynamics impact investment outlook".toList ],
    "Investors considering ".toList ++ company_name ++
      " should evaluate current financial metrics, market position, and sector trends. Risk assessment and portfolio diversification remain important factors for investment decisions.".toList,
    company_name ++
      " presents a complex investment profile requiring comprehensive analysis of financial fundamentals, market conditions, and growth prospects before making investment decisions.".toList,
    "fallback".toList ⟩

/-- Model of `GeminiStockAnalyzer.analyze_stock_comprehensive`: `gen` is the
outcome the `generate_content` call would produce (`Except.error` a raised
exception, caught by the method's `except` into the fallback). -/
def analyze_stock_comprehensive (gen : Except PyStr PyStr) (stock_data : StockData) :
    GeminiOut :=
  match gen with
  | .ok text =>
    if text ≠ [] then parse_comprehensive_analysis text stock_data
    else generate_fallback_analysis stock_data
  | .error _ => generate_fallback_analysis stock_data

/-! ## `src/app.py` — `process_stock_query` -/

/-- The tuple returned by `app.process_stock_query`: either
`(None, None, message)` or `(stock_data, gemini_analysis, basic_analysis)`. -/
inductive QueryOut where
  | noData (message : PyStr)
  | success (stock_data : StockData) (gemini_analysis : GeminiOut) (basic_analysis : PyStr)
deriving DecidableEq

/-- The invalid-symbol guidance message of `process_stock_query`. -/
def invalidSymbolMsg : PyStr :=
  "Please provide a valid stock symbol (e.g., TCS, RELIANCE, INFY)".toList

/-- Model of `app.process_stock_query`: `fetchRes` is the outcome of
`get_comprehensive_data` for the resolved symbol and `gen` the outcome of the
Gemini `generate_content` call; any exception is caught by the function's outer
`try`/`except` into an error message. -/
def process_stock_query (user_input : PyStr) (fetchRes : Except PyStr StockData)
    (gen : Except PyStr PyStr) (env : Env) : QueryOut :=
  match validate_stock_symbol user_input with
  | none => QueryOut.noData invalidSymbolMsg
  | some _ =>
    match fetchRes with
    | .error e => QueryOut.noData ("Error analyzing stock: ".toList ++ e)
    | .ok stock_data =>
      let gemini_analysis := analyze_stock_comprehensive gen stock_data
      match analyze_stock env stock_data with
      | .error e => QueryOut.noData ("Error analyzing stock: ".toList ++ e)
      | .ok analysis_result =>
        QueryOut.success stock_data gemini_analysis (analysis_field analysis_result)

example : validate_stock_symbol ("Analyze TCS".toList) = some ("TCS".toList) := by decide
example : validate_stock_symbol [] = none := by decide
example : validate_stock_symbol ("12345".toList) = none := by decide
example : get_indian_symbol ("TCS".toList) = "TCS.NS".toList := by decide
example : get_indian_symbol ("zomato ".toList) = "ZOMATO.NS".toList := by decide
example : fmtFixed (1499 / 100) 1 = "15.0".toList := by decide
example : splitOnChar '\n' ("a\nb".toList) = ["a".toList, "b".toList] := by decide
example : get_retail_holding ⟨none, none, none, none⟩ = 100 := by decide

example : parse_analysis [] =
    ⟨["Analysis pending - please check back for detailed insights".toList],
      "Investment analysis is being processed. Please try again for detailed recommendations.".toList⟩ := by
  decide

example : parse_analysis ("INSIGHTS:\n• Alpha\n• Beta\n• Gamma\nINVESTMENT_SUMMARY:\nBuy now.\nHold long.".toList) =
    ⟨["Alpha".toList, "Beta".toList, "Gamma".toList], "Buy now. Hold long.".toList⟩ := by
  decide

example :
    analyze_stock ⟨[], [], Except.error ("x".toList), Except.error ("y".toList)⟩
      ⟨none, none, none, none, none, none, none, none, none, none⟩ =
    Except.ok (AnalyzeOut.basic (generate_basic_analysis
      ⟨none, none, none, none, none, none, none, none, none, none⟩) none) := by
  decide

example :
    analyze_stock ⟨"k".toList, "k".toList, Except.error ("boom".toList),
        Except.ok ("INSIGHTS:\n• A\nINVESTMENT_SUMMARY:\nFine.".toList)⟩
      ⟨none, none, none, none, none, none, none, none, none, none⟩ =
    Except.ok (AnalyzeOut.parsed ⟨["A".toList], "Fine.".toList⟩) := by
  decide

example : valuation_insight (some (Rat.divInt 1499 100)) =
    some ("Stock appears undervalued with P/E ratio of 15.0, below market average".toList) := by
  decide

example : valuation_insight (some 15) =
    some ("Stock shows reasonable valuation with P/E ratio of 15.0".toList) := by
  decide

example : basic_insights ⟨none, none, none, none, none, none, none, none, none, none⟩ =
    [ "Currently analyzing the company financial data".toList,
      "Price data available".toList,
      "Sector: Information not available".toList,
      "Comprehensive analysis requires additional data points".toList ] := by
  decide

/-! ## Shared inputs for concrete evaluations -/

/-- A stock-data record in which every field is absent. -/
def noneData : StockData := ⟨none, none, none, none, none, none, none, none, none, none⟩

/-- A `HoldingInfo` record in which every field is absent. -/
def allNoneInfo : HoldingInfo := ⟨none, none, none, none⟩

/-- An environment with no configured provider credentials. -/
def emptyEnv : Env := ⟨[], [], Except.ok [], Except.ok []⟩

/-- An environment in which Together AI is configured but raises, and Groq is
configured and answers with well-formed text. -/
def c4Env : Env :=
  ⟨"k".toList, "k".toList, Except.error ("boom".toList),
    Except.ok ("INSIGHTS:\n• A\nINVESTMENT_SUMMARY:\nFine.".toList)⟩

/-! ## Claim theorems -/

/-- C5: in the rule-based valuation classification, a P/E ratio of `14.99` is
classified into the "undervalued" bucket while a P/E ratio of exactly `15.00`
is classified into the "reasonable" bucket (the `pe < 15` boundary excludes
`15.00` from "undervalued"). -/
theorem c5_pe_boundary :
    valuation_insight (some (Rat.divInt 1499 100)) =
      some ("Stock appears undervalued with P/E ratio of 15.0, below market average".toList) ∧
    valuation_insight (some 15) =
      some ("Stock shows reasonable valuation with P/E ratio of 15.0".toList) := by
  decide

/-- C7: `AIAnalyzer._parse_analysis` applied to the empty string returns (and
does not raise) a result with the one-element placeholder insight list and the
non-empty placeholder summary. -/
theorem c7_parse_empty :
    parse_analysis [] =
      ⟨["Analysis pending - please check back for detailed insights".toList],
        "Investment analysis is being processed. Please try again for detailed recommendations.".toList⟩ ∧
    (parse_analysis []).insights.length = 1 ∧
    (parse_analysis []).insights ≠ [] ∧
    (parse_analysis []).investment_summary ≠ [] := by
  decide

/-- C8: symbol resolution maps "Analyze TCS" to the exchange-qualified symbol
"TCS.NS", resolves the empty input to none, and resolves "12345" to none
because it is non-alphabetic. -/
theorem c8_symbol_resolution :
    (validate_stock_symbol ("Analyze TCS".toList)).map get_indian_symbol =
      some ("TCS.NS".toList) ∧
    validate_stock_symbol [] = none ∧
    validate_stock_symbol ("12345".toList) = none := by
  decide

/-- The `insights` list of the rule-based fallback is never empty. -/
theorem basic_insights_ne_nil (stock_data : StockData) : basic_insights stock_data ≠ [] := by
  simp only [basic_insights]
  split
  · exact List.cons_ne_nil _ _
  · assumption

/-- The capped insight list of the rule-based fallback is never empty. -/
theorem basic_insights_take_ne_nil (stock_data : StockData) :
    (basic_insights stock_data).take 6 ≠ [] := by
  intro h
  rcases List.take_eq_nil_iff.mp h with h6 | hnil
  · exact absurd h6 (by decide)
  · exact basic_insights_ne_nil stock_data hnil

/-- The investment summary of the rule-based fallback is never empty. -/
theorem basic_summary_ne_nil (stock_data : StockData) : basic_summary stock_data ≠ [] := by
  simp only [basic_summary]
  split
  · repeat apply List.append_ne_nil_of_left_ne_nil
    decide
  · repeat apply List.append_ne_nil_of_left_ne_nil
    decide

/-- The full report of the rule-based fallback is never empty. -/
theorem generate_basic_analysis_ne_nil (stock_data : StockData) :
    generate_basic_analysis stock_data ≠ [] := by
  simp only [generate_basic_analysis]
  repeat apply List.append_ne_nil_of_left_ne_nil
  decide

/-- C1: on every stock-data input (the all-absent one included), the rule-based
fallback `AIAnalyzer._generate_basic_analysis` produces a report whose insight
list is non-empty with at most 6 items and whose investment summary and full
report text are non-empty. -/
theorem c1_basic_analysis_total (stock_data : StockData) :
    (basic_insights stock_data).take 6 ≠ [] ∧
    ((basic_insights stock_data).take 6).length ≤ 6 ∧
    basic_summary stock_data ≠ [] ∧
    generate_basic_analysis stock_data ≠ [] :=
  ⟨basic_insights_take_ne_nil stock_data, List.length_take_le 6 _,
    basic_summary_ne_nil stock_data, generate_basic_analysis_ne_nil stock_data⟩

/-- C9 counterexample: with the institutional-holding and insider-holding
fields absent (exactly the claim's premise), `_get_retail_holding` returns
`100`, not the claimed `≈30`; the `30.0` constant is only the `except`-branch
default. -/
theorem c9_counterexample :
    allNoneInfo.heldPercentInsiders = none ∧
    allNoneInfo.heldPercentInstitutions = none ∧
    get_retail_holding allNoneInfo = 100 ∧
    ¬ get_retail_holding allNoneInfo = 30 := by
  refine ⟨rfl, rfl, by decide, by decide⟩

/-- C9 (amended): when the insider-holding, institutional-holding, float-shares
and shares-outstanding fields are all absent or zero, the shareholding
estimators return promoter `45`, FII `15`, DII `8`, and retail
`100 − 0 − 0 = 100` (the `30` retail default applies only on exception). -/
theorem c9_amended (info : HoldingInfo)
    (h1 : info.heldPercentInsiders = none ∨ info.heldPercentInsiders = some 0)
    (h2 : info.heldPercentInstitutions = none ∨ info.heldPercentInstitutions = some 0)
    (h3 : info.floatShares = none ∨ info.floatShares = some 0)
    (h4 : info.sharesOutstanding = none ∨ info.sharesOutstanding = some 0) :
    get_promoter_holding info = 45 ∧ get_fii_holding info = 15 ∧
    get_dii_holding info = 8 ∧ get_retail_holding info = 100 := by
  obtain ⟨f1, f2, f3, f4⟩ := info
  rcases h1 with h1 | h1 <;> rcases h2 with h2 | h2 <;> rcases h3 with h3 | h3 <;>
    rcases h4 with h4 | h4 <;>
      (simp only at h1 h2 h3 h4; subst h1; subst h2; subst h3; subst h4; decide)

/-- C9 witness: the amended statement evaluated on the all-absent record. -/
theorem c9_witness :
    ((allNoneInfo.heldPercentInsiders = none ∨ allNoneInfo.heldPercentInsiders = some 0) ∧
      (allNoneInfo.heldPercentInstitutions = none ∨ allNoneInfo.heldPercentInstitutions = some 0) ∧
      (allNoneInfo.floatShares = none ∨ allNoneInfo.floatShares = some 0) ∧
      (allNoneInfo.sharesOutstanding = none ∨ allNoneInfo.sharesOutstanding = some 0)) ∧
    (get_promoter_holding allNoneInfo = 45 ∧ get_fii_holding allNoneInfo = 15 ∧
      get_dii_holding allNoneInfo = 8 ∧ get_retail_holding allNoneInfo = 100) :=
  ⟨⟨Or.inl rfl, Or.inl rfl, Or.inl rfl, Or.inl rfl⟩,
    c9_amended allNoneInfo (Or.inl rfl) (Or.inl rfl) (Or.inl rfl) (Or.inl rfl)⟩

/-- `AIAnalyzer.analyze_stock` never lets an exception escape: every provider
failure is caught and recovered, so the call always returns a result. -/
theorem analyze_stock_never_raises (env : Env) (stock_data : StockData) :
    ∃ r, analyze_stock env stock_data = Except.ok r := by
  obtain ⟨k1, k2, r1, r2⟩ := env
  cases k1 <;> cases k2 <;> rcases r1 with e1 | a1 <;> rcases r2 with e2 | a2 <;>
    first
      | exact ⟨_, rfl⟩
      | (cases a1 <;> cases a2 <;> exact ⟨_, rfl⟩)
      | (cases a1 <;> exact ⟨_, rfl⟩)
      | (cases a2 <;> exact ⟨_, rfl⟩)

/-- C3: with both provider credentials absent, `AIAnalyzer.analyze_stock`
returns the rule-based result, tagged with source "basic", whose insight list
and summary are non-empty. -/
theorem c3_unconfigured_providers (env : Env) (stock_data : StockData)
    (h1 : env.together_api_key = []) (h2 : env.groq_api_key = []) :
    analyze_stock env stock_data =
      Except.ok (AnalyzeOut.basic (generate_basic_analysis stock_data) none) ∧
    source_tag (AnalyzeOut.basic (generate_basic_analysis stock_data) none) =
      some ("basic".toList) ∧
    (basic_insights stock_data).take 6 ≠ [] ∧
    basic_summary stock_data ≠ [] ∧
    generate_basic_analysis stock_data ≠ [] := by
  obtain ⟨k1, k2, r1, r2⟩ := env
  simp only at h1 h2
  subst h1; subst h2
  exact ⟨rfl, rfl, basic_insights_take_ne_nil stock_data, basic_summary_ne_nil stock_data,
    generate_basic_analysis_ne_nil stock_data⟩

/-- C3 witness: the theorem evaluated with no credentials on the all-absent
stock record. -/
theorem c3_witness :
    (emptyEnv.together_api_key = [] ∧ emptyEnv.groq_api_key = []) ∧
    (analyze_stock emptyEnv noneData =
        Except.ok (AnalyzeOut.basic (generate_basic_analysis noneData) none) ∧
      source_tag (AnalyzeOut.basic (generate_basic_analysis noneData) none) =
        some ("basic".toList) ∧
      (basic_insights noneData).take 6 ≠ [] ∧
      basic_summary noneData ≠ [] ∧
      generate_basic_analysis noneData ≠ []) :=
  ⟨⟨rfl, rfl⟩, c3_unconfigured_providers emptyEnv noneData rfl rfl⟩

/-- C4 counterexample: when the primary provider throws and the secondary
succeeds with parseable text, the returned dictionary is the parsed result,
which carries no `source` key at all — its source tag is `none`, not the
secondary provider's identity ("groq"). -/
theorem c4_counterexample :
    analyze_stock c4Env noneData =
      Except.ok (AnalyzeOut.parsed ⟨["A".toList], "Fine.".toList⟩) ∧
    source_tag (AnalyzeOut.parsed ⟨["A".toList], "Fine.".toList⟩) = none ∧
    ¬ source_tag (AnalyzeOut.parsed ⟨["A".toList], "Fine.".toList⟩) =
        some ("groq".toList) := by
  refine ⟨by decide, rfl, by decide⟩

/-- C4 (amended): if the primary provider call throws and the secondary
provider call succeeds with non-empty text, `AIAnalyzer.analyze_stock` returns
normally with the parsed result of the secondary provider's text; that result
carries no source tag ("basic" is the only source tag the code ever sets, on
the fallback path). -/
theorem c4_amended (env : Env) (stock_data : StockData) (e t : PyStr)
    (h1 : env.together_api_key ≠ []) (h2 : env.together_result = Except.error e)
    (h3 : env.groq_api_key ≠ []) (h4 : env.groq_result = Except.ok t)
    (h5 : t ≠ []) :
    analyze_stock env stock_data = Except.ok (AnalyzeOut.parsed (parse_analysis t)) ∧
    source_tag (AnalyzeOut.parsed (parse_analysis t)) = none := by
  obtain ⟨k1, k2, r1, r2⟩ := env
  simp only at h1 h2 h3 h4
  subst h2; subst h4
  obtain ⟨c1, cs1, rfl⟩ := List.exists_cons_of_ne_nil h1
  obtain ⟨c2, cs2, rfl⟩ := List.exists_cons_of_ne_nil h3
  obtain ⟨c3, cs3, rfl⟩ := List.exists_cons_of_ne_nil h5
  exact ⟨rfl, rfl⟩

/-- C4 witness: the amended statement evaluated on a concrete environment in
which Together AI raises and Groq answers with well-formed text. -/
theorem c4_amended_witness :
    (c4Env.together_api_key ≠ [] ∧ c4Env.together_result = Except.error ("boom".toList) ∧
      c4Env.groq_api_key ≠ [] ∧
      c4Env.groq_result =
        Except.ok ("INSIGHTS:\n• A\nINVESTMENT_SUMMARY:\nFine.".toList) ∧
      ("INSIGHTS:\n• A\nINVESTMENT_SUMMARY:\nFine.".toList : PyStr) ≠ []) ∧
    (analyze_stock c4Env noneData =
        Except.ok (AnalyzeOut.parsed
          (parse_analysis ("INSIGHTS:\n• A\nINVESTMENT_SUMMARY:\nFine.".toList))) ∧
      source_tag (AnalyzeOut.parsed
          (parse_analysis ("INSIGHTS:\n• A\nINVESTMENT_SUMMARY:\nFine.".toList))) = none) :=
  ⟨⟨by decide, rfl, by decide, rfl, by decide⟩,
    c4_amended c4Env noneData ("boom".toList)
      ("INSIGHTS:\n• A\nINVESTMENT_SUMMARY:\nFine.".toList)
      (by decide) rfl (by decide) rfl (by decide)⟩

/-- C2: downstream of symbol resolution no exception escapes
`AIAnalyzer.analyze_stock`, and the whole `process_stock_query` pipeline has
exactly three outcomes: the invalid-symbol guidance message, an error message
derived from a data-fetch failure (upstream data unavailable), or a successful
analysis tuple. -/
theorem c2_fail_soft (user_input : PyStr) (fetchRes : Except PyStr StockData)
    (gen : Except PyStr PyStr) (env : Env) (stock_data : StockData) :
    (∃ r, analyze_stock env stock_data = Except.ok r) ∧
    (process_stock_query user_input fetchRes gen env = QueryOut.noData invalidSymbolMsg ∧
        validate_stock_symbol user_input = none ∨
      (∃ e, fetchRes = Except.error e ∧
        process_stock_query user_input fetchRes gen env =
          QueryOut.noData ("Error analyzing stock: ".toList ++ e)) ∨
      (∃ d g b, process_stock_query user_input fetchRes gen env =
        QueryOut.success d g b)) := by
  refine ⟨analyze_stock_never_raises env stock_data, ?_⟩
  rcases hv : validate_stock_symbol user_input with _ | sym
  · exact Or.inl ⟨by simp only [process_stock_query, hv], rfl⟩
  · rcases fetchRes with e | data
    · exact Or.inr (Or.inl ⟨e, rfl, by simp only [process_stock_query, hv]⟩)
    · obtain ⟨r, hr⟩ := analyze_stock_never_raises env data
      exact Or.inr (Or.inr ⟨data, analyze_stock_comprehensive gen data, analysis_field r,
        by simp only [process_stock_query, hv, hr]⟩)

/-! ## C10: idempotence of symbol-to-exchange normalisation -/

/-- ASCII uppercasing is idempotent. -/
theorem toUpper_toUpper (c : Char) : c.toUpper.toUpper = c.toUpper := by
  by_cases h : c.toNat ≥ 97 ∧ c.toNat ≤ 122
  · have h1 : c.toUpper = Char.ofNat (c.toNat - 32) := by
      show (if c.toNat ≥ 97 ∧ c.toNat ≤ 122 then Char.ofNat (c.toNat - 32) else c) = _
      rw [if_pos h]
    have hv : Nat.isValidChar (c.toNat - 32) := Or.inl (by omega)
    have ht : (Char.ofNat (c.toNat - 32)).toNat = c.toNat - 32 := by
      rw [Char.ofNat, dif_pos hv]; rfl
    rw [h1]
    show (if (Char.ofNat (c.toNat - 32)).toNat ≥ 97 ∧ (Char.ofNat (c.toNat - 32)).toNat ≤ 122
          then Char.ofNat ((Char.ofNat (c.toNat - 32)).toNat - 32)
          else Char.ofNat (c.toNat - 32)) = _
    rw [if_neg]
    intro hcon
    rw [ht] at hcon
    omega
  · have h1 : c.toUpper = c := by
      show (if c.toNat ≥ 97 ∧ c.toNat ≤ 122 then Char.ofNat (c.toNat - 32) else c) = _
      rw [if_neg h]
    rw [h1, h1]

/-- A list fixed by `dropWhile` passes the fixity to each of its prefixes. -/
theorem dropWhile_eq_self_of_isPrefix {p : Char → Bool} {L M : PyStr}
    (hL : L.dropWhile p = L) (hM : M <+: L) : M.dropWhile p = M := by
  cases M with
  | nil => rfl
  | cons m ms =>
    cases L with
    | nil => simp at hM
    | cons a as =>
      have hma : m = a := (List.cons_prefix_cons.mp hM).1
      subst hma
      by_cases hp : p m
      · exfalso
        rw [List.dropWhile_cons_of_pos hp] at hL
        have hlen := congrArg List.length hL
        have hle : (as.dropWhile p).length ≤ as.length :=
          List.Sublist.length_le (List.dropWhile_sublist p)
        simp at hlen
        omega
      · rw [List.dropWhile_cons_of_neg hp]

/-- A stripped string has no leading whitespace. -/
theorem dropWhile_trimL (l : PyStr) :
    (trimL l).dropWhile Char.isWhitespace = trimL l :=
  dropWhile_eq_self_of_isPrefix (List.dropWhile_idempotent _ _)
    ( List.rdropWhile_prefix _ _)

/-- Stripping is idempotent. -/
theorem trimL_trimL (l : PyStr) : trimL (trimL l) = trimL l := by
  show List.rdropWhile _ ((trimL l).dropWhile _) = trimL l
  rw [dropWhile_trimL]
  show List.rdropWhile _ (List.rdropWhile _ (List.dropWhile _ l)) = _
  exact List.rdropWhile_idempotent _ _

/-- Uppercasing after upper-then-strip changes nothing. -/
theorem upperL_trim_upper (l : PyStr) :
    upperL (trimL (upperL l)) = trimL (upperL l) := by
  have hsub : List.Sublist (trimL (upperL l)) (upperL l) :=
    (( List.rdropWhile_prefix _ _).sublist).trans (List.dropWhile_sublist _)
  have hmem : ∀ c ∈ trimL (upperL l), c.toUpper = id c := by
    intro c hc
    obtain ⟨x, _, rfl⟩ := List.mem_map.mp (hsub.subset hc)
    exact toUpper_toUpper x
  calc upperL (trimL (upperL l)) = List.map id (trimL (upperL l)) :=
        List.map_congr_left hmem
    _ = trimL (upperL l) := List.map_id _

/-- Upper-then-strip is a projection: applying it to its own output changes
nothing. -/
theorem trim_upper_fixed (l : PyStr) :
    trimL (upperL (trimL (upperL l))) = trimL (upperL l) := by
  rw [upperL_trim_upper, trimL_trimL]

/-- `str.upper()` distributes over concatenation. -/
theorem upperL_append (a b : PyStr) : upperL (a ++ b) = upperL a ++ upperL b :=
  List.map_append _ _ _

/-- Uppercasing the default-suffix result changes nothing. -/
theorem upperL_append_ns (l : PyStr) :
    upperL (trimL (upperL l) ++ ".NS".toList) = trimL (upperL l) ++ ".NS".toList := by
  rw [upperL_append, upperL_trim_upper]
  have h2 : upperL (".NS".toList) = ".NS".toList := by decide
  rw [h2]

/-- Stripping the default-suffix result changes nothing. -/
theorem trimL_append_ns (l : PyStr) :
    trimL (trimL (upperL l) ++ ".NS".toList) = trimL (upperL l) ++ ".NS".toList := by
  have h1 : (trimL (upperL l) ++ ".NS".toList).dropWhile Char.isWhitespace =
      trimL (upperL l) ++ ".NS".toList := by
    rw [List.dropWhile_append]
    by_cases hnil : trimL (upperL l) = []
    · rw [hnil]
      decide
    · rw [dropWhile_trimL]
      simp [List.isEmpty_iff, hnil]
  show List.rdropWhile _ ((trimL (upperL l) ++ ".NS".toList).dropWhile _) = _
  rw [h1]
  have hsplit : trimL (upperL l) ++ ".NS".toList = (trimL (upperL l) ++ ['.', 'N']) ++ ['S'] := by
    have : (".NS".toList : PyStr) = ['.', 'N', 'S'] := rfl
    rw [this, List.append_assoc]
    rfl
  rw [hsplit, List.rdropWhile_concat_neg _ _ _ (by decide), ← hsplit]

/-- Every string ends with an appended suffix. -/
theorem endsWith_append (u suf : PyStr) : endsWithL (u ++ suf) suf = true := by
  simp [endsWithL, List.isSuffixOf_iff_suffix]

/-- A successful lookup returns a value stored in the table. -/
theorem lookupL_mem {k v : PyStr} :
    ∀ {t : List (PyStr × PyStr)}, lookupL k t = some v → ∃ a, (a, v) ∈ t := by
  intro t
  induction t with
  | nil => intro h; cases h
  | cons kv rest ih =>
    intro h
    obtain ⟨a, b⟩ := kv
    by_cases hk : k = a
    · rw [lookupL, if_pos hk] at h
      exact ⟨a, by simp [Option.some_inj.mp h]⟩
    · rw [lookupL, if_neg hk] at h
      obtain ⟨a', ha'⟩ := ih h
      exact ⟨a', List.mem_cons_of_mem _ ha'⟩

/-- Every value of the alias table is already upper-stripped and carries the
".NS" suffix. -/
theorem indian_symbols_good :
    ∀ p ∈ indian_symbols,
      trimL (upperL p.2) = p.2 ∧ endsWithL p.2 (".NS".toList) = true := by
  decide

/-- `get_indian_symbol` returns its input unchanged when the input is already
upper-stripped and exchange-qualified. -/
theorem gis_fixed (s : PyStr) (h : trimL (upperL s) = s)
    (hend : (endsWithL s (".NS".toList) || endsWithL s (".BO".toList)) = true) :
    get_indian_symbol s = s := by
  unfold get_indian_symbol
  rw [h, if_pos hend]

/-- C10: symbol-to-exchange normalisation is idempotent — every output of
`get_indian_symbol` is returned unchanged when fed back in, because it already
carries a ".NS" or ".BO" suffix. -/
theorem c10_resolution_idempotent (symbol : PyStr) :
    get_indian_symbol (get_indian_symbol symbol) = get_indian_symbol symbol := by
  by_cases hend : (endsWithL (trimL (upperL symbol)) (".NS".toList) ||
      endsWithL (trimL (upperL symbol)) (".BO".toList)) = true
  · have h1 : get_indian_symbol symbol = trimL (upperL symbol) := by
      unfold get_indian_symbol
      rw [if_pos hend]
    rw [h1]
    exact gis_fixed _ (trim_upper_fixed symbol) hend
  · cases hl : lookupL (trimL (upperL symbol)) indian_symbols with
    | some v =>
      have h1 : get_indian_symbol symbol = v := by
        unfold get_indian_symbol
        rw [if_neg hend, hl]
      rw [h1]
      obtain ⟨a, ha⟩ := lookupL_mem hl
      obtain ⟨hv1, hv2⟩ := indian_symbols_good _ ha
      exact gis_fixed v hv1 (by rw [hv2]; rfl)
    | none =>
      have h1 : get_indian_symbol symbol = trimL (upperL symbol) ++ ".NS".toList := by
        unfold get_indian_symbol
        rw [if_neg hend, hl]
      rw [h1]
      apply gis_fixed
      · rw [upperL_append_ns, trimL_append_ns]
      · rw [endsWith_append]
        rfl

/-! ## C6: round-trip of the response parser -/

/-- A Python-stripped string: no leading and no trailing whitespace. -/
def Trimmed (l : PyStr) : Prop :=
  l.dropWhile Char.isWhitespace = l ∧ List.rdropWhile Char.isWhitespace l = l

/-- The line triggers neither section header of `_parse_analysis`. -/
def NoHeader (l : PyStr) : Prop :=
  containsL (upperL l) ("INSIGHTS:".toList) = false ∧
  containsL (upperL l) ("INVESTMENT_SUMMARY:".toList) = false

/-- A well-formed bullet content: stripped, non-empty, on one line, and not
containing a section-header keyword. -/
def GoodContent (l : PyStr) : Prop :=
  Trimmed l ∧ l ≠ [] ∧ '\n' ∉ l ∧ NoHeader l

/-- A well-formed prose line: additionally not starting with a bullet marker. -/
def GoodProse (l : PyStr) : Prop :=
  GoodContent l ∧ startsBullet l = false

instance (l : PyStr) : Decidable (Trimmed l) :=
  inferInstanceAs (Decidable (_ ∧ _))

instance (l : PyStr) : Decidable (NoHeader l) :=
  inferInstanceAs (Decidable (_ ∧ _))

instance (l : PyStr) : Decidable (GoodContent l) :=
  inferInstanceAs (Decidable (_ ∧ _))

instance (l : PyStr) : Decidable (GoodProse l) :=
  inferInstanceAs (Decidable (_ ∧ _))

/-- Join prose lines with single separating spaces (the shape
`_parse_analysis` recovers for the summary). -/
def joinSp : List PyStr → PyStr
  | [] => []
  | [p] => p
  | p :: ps => p ++ ' ' :: joinSp ps

/-- The raw summary accumulator: every line followed by one space. -/
def accSp : List PyStr → PyStr
  | [] => []
  | p :: ps => p ++ ' ' :: accSp ps

/-- Splitting a separator-free string is the identity. -/
theorem splitOnChar_no_sep (c : Char) (l : PyStr) (h : c ∉ l) :
    splitOnChar c l = [l] := by
  induction l with
  | nil => rfl
  | cons x xs ih =>
    have hx : ¬ x = c := fun hxc => h (hxc ▸ List.mem_cons_self x xs)
    have hxs : c ∉ xs := fun hm => h (List.mem_cons_of_mem x hm)
    rw [splitOnChar, if_neg hx, ih hxs]

/-- Splitting after a separator-free chunk peels that chunk off. -/
theorem splitOnChar_append (c : Char) (l rest : PyStr) (h : c ∉ l) :
    splitOnChar c (l ++ c :: rest) = l :: splitOnChar c rest := by
  induction l with
  | nil => simp [splitOnChar]
  | cons x xs ih =>
    have hx : ¬ x = c := fun hxc => h (hxc ▸ List.mem_cons_self x xs)
    have hxs : c ∉ xs := fun hm => h (List.mem_cons_of_mem x hm)
    rw [List.cons_append, splitOnChar, if_neg hx, ih hxs]

/-- `splitOnChar` is a left inverse of `joinNL` on newline-free lines. -/
theorem splitOnChar_joinNL (lines : List PyStr) (hnn : lines ≠ [])
    (h : ∀ l ∈ lines, '\n' ∉ l) :
    splitOnChar '\n' (joinNL lines) = lines := by
  induction lines with
  | nil => exact absurd rfl hnn
  | cons l ls ih =>
    cases ls with
    | nil => exact splitOnChar_no_sep _ _ (h l (List.mem_cons_self l []))
    | cons l2 ls2 =>
      have h1 : joinNL (l :: l2 :: ls2) = l ++ '\n' :: joinNL (l2 :: ls2) := rfl
      rw [h1, splitOnChar_append _ _ _ (h l (List.mem_cons_self _ _)),
        ih (List.cons_ne_nil _ _) (fun x hx => h x (List.mem_cons_of_mem l hx))]

/-- A `Trimmed` string is fixed by `trimL`. -/
theorem trimL_of_trimmed {l : PyStr} (h : Trimmed l) : trimL l = l := by
  unfold trimL
  rw [h.1, h.2]

/-- `containsL` on a cons: a prefix test plus the tail search. -/
theorem containsL_cons (c : Char) (l pat : PyStr) :
    containsL (c :: l) pat = (pat.isPrefixOf (c :: l) || containsL l pat) := by
  unfold containsL
  rw [List.tails_cons, List.any_cons]

/-- A pattern whose first character differs from the head is only found in the
tail. -/
theorem containsL_cons_of_head_ne (c : Char) (l : PyStr) (p1 : Char) (ps : PyStr)
    (h : (p1 == c) = false) :
    containsL (c :: l) (p1 :: ps) = containsL l (p1 :: ps) := by
  rw [containsL_cons, List.isPrefixOf_cons₂, h]
  simp

/-- `rdropWhile` ignores a prefix when the suffix is non-empty and already
fixed. -/
theorem rdropWhile_append_left (p : Char → Bool) (x a : PyStr) (hne : a ≠ [])
    (hfix : List.rdropWhile p a = a) :
    List.rdropWhile p (x ++ a) = x ++ a := by
  have h1 : List.dropWhile p a.reverse = a.reverse := by
    have h2 := congrArg List.reverse hfix
    unfold List.rdropWhile at h2
    simpa using h2
  unfold List.rdropWhile
  rw [List.reverse_append, List.dropWhile_append, h1]
  have h3 : a.reverse.isEmpty = false := by
    simp [List.isEmpty_iff, hne]
  rw [h3]
  simp

/-- Stripping a well-formed bullet line changes nothing. -/
theorem trimL_bullet {a : PyStr} (ha : GoodContent a) :
    trimL ('•' :: ' ' :: a) = '•' :: ' ' :: a := by
  unfold trimL
  rw [List.dropWhile_cons_of_neg (by decide)]
  show List.rdropWhile _ (['•', ' '] ++ a) = _
  rw [rdropWhile_append_left _ _ _ ha.2.1 ha.1.2]
  rfl

/-- A well-formed bullet line contains no section-header keyword: the header
patterns start with `I`, which matches neither the bullet nor the following
space. -/
theorem containsL_bullet_free (a q : PyStr)
    (hpat : containsL (upperL a) ('I' :: q) = false) :
    containsL (upperL ('•' :: ' ' :: a)) ('I' :: q) = false := by
  show containsL ('•' :: ' ' :: upperL a) _ = false
  rw [containsL_cons_of_head_ne _ _ _ _ (by decide),
    containsL_cons_of_head_ne _ _ _ _ (by decide), hpat]

/-- The "INSIGHTS:" header line switches the section to insights. -/
theorem parseStep_header_ins (st : PState) :
    parseStep st ("INSIGHTS:".toList) = { st with sec := some Sect.insights } := rfl

/-- The "INVESTMENT_SUMMARY:" header line switches the section to summary. -/
theorem parseStep_header_sum (st : PState) :
    parseStep st ("INVESTMENT_SUMMARY:".toList) = { st with sec := some Sect.summary } := rfl

/-- Stripping a space-prefixed trimmed string recovers it. -/
theorem trimL_space_cons {a : PyStr} (ha : Trimmed a) : trimL (' ' :: a) = a := by
  unfold trimL
  rw [List.dropWhile_cons_of_pos (by decide), ha.1, ha.2]

/-- In the insights section, a well-formed bullet line appends its content. -/
theorem parseStep_bullet (st : PState) (a : PyStr) (ha : GoodContent a)
    (hsec : st.sec = some Sect.insights) :
    parseStep st ('•' :: ' ' :: a) = { st with ins := st.ins ++ [a] } := by
  obtain ⟨htr, hne, hnl, hh1, hh2⟩ := ha
  have hb1 : containsL (upperL ('•' :: ' ' :: a)) ("INSIGHTS:".toList) = false :=
    containsL_bullet_free a ("NSIGHTS:".toList) hh1
  have hb2 : containsL (upperL ('•' :: ' ' :: a)) ("INVESTMENT_SUMMARY:".toList) = false :=
    containsL_bullet_free a ("NVESTMENT_SUMMARY:".toList) hh2
  have htb : trimL ('•' :: ' ' :: a) = '•' :: ' ' :: a := trimL_bullet ⟨htr, hne, hnl, hh1, hh2⟩
  simp only [parseStep, htb, hb1, hb2, hsec, Bool.false_eq_true, if_false, startsBullet]
  simp [trimL_space_cons htr]

/-- In the summary section, a well-formed prose line is appended, followed by
one space. -/
theorem parseStep_prose (st : PState) (p : PyStr) (hp : GoodProse p)
    (hsec : st.sec = some Sect.summary) :
    parseStep st p = { st with sum := st.sum ++ p ++ [' '] } := by
  obtain ⟨⟨htr, hne, hnl, hh1, hh2⟩, hb⟩ := hp
  simp only [parseStep, trimL_of_trimmed htr, hh1, hh2, hb, hsec, Bool.false_eq_true,
    if_false]
  simp [hne]

/-- Folding the prose lines accumulates the space-joined summary. -/
theorem foldl_prose (ps : List PyStr) (hps : ∀ p ∈ ps, GoodProse p) :
    ∀ st : PState, st.sec = some Sect.summary →
      ps.foldl parseStep st = { st with sum := st.sum ++ accSp ps } := by
  induction ps with
  | nil => intro st _; simp [accSp]
  | cons p ps ih =>
    intro st hsec
    rw [List.foldl_cons, parseStep_prose st p (hps p (List.mem_cons_self _ _)) hsec,
      ih (fun q hq => hps q (List.mem_cons_of_mem _ hq))
        { st with sum := st.sum ++ p ++ [' '] } hsec]
    simp [accSp, List.append_assoc]

/-- The space-joined prose of non-empty lines is non-empty. -/
theorem joinSp_ne_nil (ps : List PyStr) (hne : ps ≠ []) (hp : ∀ p ∈ ps, p ≠ []) :
    joinSp ps ≠ [] := by
  cases ps with
  | nil => exact absurd rfl hne
  | cons p ps' =>
    cases ps' with
    | nil => exact hp p (List.mem_cons_self _ _)
    | cons q r =>
      show p ++ ' ' :: joinSp (q :: r) ≠ []
      exact List.append_ne_nil_of_right_ne_nil p (List.cons_ne_nil _ _)

/-- The space-joined prose of well-formed lines has no trailing whitespace. -/
theorem rdropWhile_joinSp (ps : List PyStr) (hps : ∀ p ∈ ps, GoodProse p)
    (hne : ps ≠ []) :
    List.rdropWhile Char.isWhitespace (joinSp ps) = joinSp ps := by
  induction ps with
  | nil => exact absurd rfl hne
  | cons p ps' ih =>
    cases ps' with
    | nil => exact (hps p (List.mem_cons_self _ _)).1.1.2
    | cons q r =>
      have hj : joinSp (p :: q :: r) = (p ++ [' ']) ++ joinSp (q :: r) := by
        show p ++ ' ' :: joinSp (q :: r) = _
        simp
      have hqr : ∀ x ∈ q :: r, GoodProse x :=
        fun x hx => hps x (List.mem_cons_of_mem _ hx)
      have hqr' : ∀ x ∈ q :: r, x ≠ [] := fun x hx => (hqr x hx).1.2.1
      rw [hj, rdropWhile_append_left _ _ _
        (joinSp_ne_nil _ (List.cons_ne_nil _ _) hqr')
        (ih hqr (List.cons_ne_nil _ _)), ← hj]

/-- The space-terminated prose accumulator has no leading whitespace. -/
theorem dropWhile_joinSp_sp (ps : List PyStr) (hps : ∀ p ∈ ps, GoodProse p)
    (hne : ps ≠ []) :
    List.dropWhile Char.isWhitespace (joinSp ps ++ [' ']) = joinSp ps ++ [' '] := by
  cases ps with
  | nil => exact absurd rfl hne
  | cons p ps' =>
    obtain ⟨X, hX⟩ : ∃ X, joinSp (p :: ps') ++ [' '] = p ++ X := by
      cases ps' with
      | nil => exact ⟨[' '], rfl⟩
      | cons q r => exact ⟨' ' :: joinSp (q :: r) ++ [' '], by simp [joinSp]⟩
    have hfix : List.dropWhile Char.isWhitespace p = p :=
      (hps p (List.mem_cons_self _ _)).1.1.1
    have hpe : p.isEmpty = false := by
      simp [List.isEmpty_iff]
      exact (hps p (List.mem_cons_self _ _)).1.2.1
    rw [hX, List.dropWhile_append, hfix, hpe]
    simp

/-- The accumulator is the space-joined prose plus one trailing space. -/
theorem accSp_eq (ps : List PyStr) (hne : ps ≠ []) :
    accSp ps = joinSp ps ++ [' '] := by
  induction ps with
  | nil => exact absurd rfl hne
  | cons p ps' ih =>
    cases ps' with
    | nil => rfl
    | cons q r =>
      show p ++ ' ' :: accSp (q :: r) = (p ++ ' ' :: joinSp (q :: r)) ++ [' ']
      rw [ih (List.cons_ne_nil _ _)]
      simp

/-- Stripping the raw summary accumulator yields the space-joined prose. -/
theorem trimL_accSp (ps : List PyStr) (hps : ∀ p ∈ ps, GoodProse p)
    (hne : ps ≠ []) :
    trimL (accSp ps) = joinSp ps := by
  rw [accSp_eq ps hne]
  unfold trimL
  rw [dropWhile_joinSp_sp ps hps hne, List.rdropWhile_concat_pos _ _ _ (by decide),
    rdropWhile_joinSp ps hps hne]

/-- C6: round-trip of the response parser. For any well-formed text made of an
"INSIGHTS:" header, exactly three bullet lines, an "INVESTMENT_SUMMARY:"
header, and non-empty prose lines, `AIAnalyzer._parse_analysis` returns exactly
the three bullet contents (marker stripped) as insights and the prose lines
joined with single spaces as the summary. -/
theorem c6_parse_roundtrip (a b c : PyStr) (ps : List PyStr)
    (ha : GoodContent a) (hb : GoodContent b) (hc : GoodContent c)
    (hps : ∀ p ∈ ps, GoodProse p) (hne : ps ≠ []) :
    parse_analysis (joinNL (["INSIGHTS:".toList, '•' :: ' ' :: a, '•' :: ' ' :: b,
        '•' :: ' ' :: c, "INVESTMENT_SUMMARY:".toList] ++ ps)) =
      ⟨[a, b, c], joinSp ps⟩ := by
  have hnlBullet : ∀ {x : PyStr}, GoodContent x → '\n' ∉ ('•' :: ' ' :: x) := by
    intro x hx hmem
    rcases List.mem_cons.mp hmem with h1 | hmem
    · exact absurd h1 (by decide)
    · rcases List.mem_cons.mp hmem with h2 | hmem
      · exact absurd h2 (by decide)
      · exact hx.2.2.1 hmem
  have hlines : splitOnChar '\n' (joinNL (["INSIGHTS:".toList, '•' :: ' ' :: a,
      '•' :: ' ' :: b, '•' :: ' ' :: c, "INVESTMENT_SUMMARY:".toList] ++ ps)) =
      ["INSIGHTS:".toList, '•' :: ' ' :: a, '•' :: ' ' :: b, '•' :: ' ' :: c,
        "INVESTMENT_SUMMARY:".toList] ++ ps := by
    apply splitOnChar_joinNL
    · simp
    · intro l hl
      simp only [List.cons_append, List.nil_append, List.mem_cons] at hl
      rcases hl with h | h | h | h | h | hmem
      · subst h; decide
      · subst h; exact hnlBullet ha
      · subst h; exact hnlBullet hb
      · subst h; exact hnlBullet hc
      · subst h; decide
      · exact (hps l hmem).1.2.2.1
  unfold parse_analysis
  rw [hlines]
  simp only [List.cons_append, List.nil_append]
  rw [List.foldl_cons, parseStep_header_ins,
    List.foldl_cons, parseStep_bullet _ a ha rfl,
    List.foldl_cons, parseStep_bullet _ b hb rfl,
    List.foldl_cons, parseStep_bullet _ c hc rfl,
    List.foldl_cons, parseStep_header_sum,
    foldl_prose ps hps _ rfl]
  have hsum := trimL_accSp ps hps hne
  have hjoin : joinSp ps ≠ [] :=
    joinSp_ne_nil ps hne (fun p hp => (hps p hp).1.2.1)
  simp [hsum, hjoin]

/-- C6 witness: the round-trip evaluated on a concrete well-formed text. -/
theorem c6_witness :
    (GoodContent ("Strong growth".toList) ∧ GoodContent ("Low debt".toList) ∧
      GoodContent ("Fair value".toList) ∧
      (∀ p ∈ [("Buy now.".toList : PyStr), "Hold long.".toList], GoodProse p) ∧
      ([("Buy now.".toList : PyStr), "Hold long.".toList] ≠ [])) ∧
    parse_analysis (joinNL (["INSIGHTS:".toList, '•' :: ' ' :: "Strong growth".toList,
        '•' :: ' ' :: "Low debt".toList, '•' :: ' ' :: "Fair value".toList,
        "INVESTMENT_SUMMARY:".toList] ++
          [("Buy now.".toList : PyStr), "Hold long.".toList])) =
      ⟨["Strong growth".toList, "Low debt".toList, "Fair value".toList],
        joinSp [("Buy now.".toList : PyStr), "Hold long.".toList]⟩ :=
  ⟨⟨by decide, by decide, by decide, by decide, by decide⟩,
    c6_parse_roundtrip ("Strong growth".toList) ("Low debt".toList)
      ("Fair value".toList) [("Buy now.".toList : PyStr), "Hold long.".toList]
      (by decide) (by decide) (by decide) (by decide) (by decide)⟩

end SwingLeofy
